import Mathlib

/-!
Shallow embedding of the summarization pipeline of the NebulaTelegramBot
repository: the per-node cost tracker (`src/agents/cost_tracker.py`), the
orchestrator/worker/synthesizer agent (`src/agents/audio_agent.py`), the
standalone transcription summarizer
(`src/message_processing/transcription_processor.py`) and the audio message
handler (`src/message_processing/message_handler.py`).

Conventions of the embedding:
* Python dicts used as keyed records (`node_costs`) become association lists
  `List (String × NodeCost)` that preserve insertion order and, as in a
  Python dict, never hold a key twice (the only inserter checks membership
  first).
* Dollar costs are modelled as exact rationals `ℚ`; the source uses Python
  floats and formats them as `$%.6f` strings in the report.  Wall-clock
  duration fields are omitted (real time is outside the model).
* Chat-Completion calls are effectful in the source; here every LLM
  interaction is mediated by an oracle (`RunOracle`) supplying the provider
  responses, and the callback side effects (`on_llm_start`, `on_llm_end`)
  are threaded explicitly through the `CostTracker` state.
-/

/-- Token usage block of a provider response.  The source reads
`token_usage.get("prompt_tokens", 0)`; an absent key is `none`. -/
structure TokenUsage where
  prompt_tokens : Option Nat
  completion_tokens : Option Nat
deriving DecidableEq, Repr

/-- The `llm_output` payload of a provider response; `token_usage` may be
absent (`response.llm_output.get("token_usage", {})`). -/
structure LLMOutput where
  token_usage : Option TokenUsage
deriving DecidableEq, Repr

/-- A provider response as seen by the callback: `llm_output` may be missing
or falsy (`if hasattr(response, "llm_output") and response.llm_output`). -/
structure LLMResult where
  llm_output : Option LLMOutput
deriving DecidableEq, Repr

/-- Per-1000-token pricing pair `{"prompt": ..., "completion": ...}`. -/
structure Pricing where
  prompt : ℚ
  completion : ℚ
deriving DecidableEq, Repr

/-- One entry of `self.node_costs`. -/
structure NodeCost where
  prompt_tokens : Nat
  completion_tokens : Nat
  total_tokens : Nat
  cost : ℚ
  calls : Nat
deriving DecidableEq, Repr

/-- The zero record a fresh node starts with in `set_current_node`. -/
def NodeCost.zero : NodeCost :=
  { prompt_tokens := 0, completion_tokens := 0, total_tokens := 0, cost := 0, calls := 0 }

/-- State of `CostTracker` (`cost_tracker.py`), minus the wall-clock
`start_time` field. -/
structure CostTracker where
  model_name : String
  total_tokens : Nat
  prompt_tokens : Nat
  completion_tokens : Nat
  total_cost : ℚ
  calls : Nat
  node_costs : List (String × NodeCost)
  current_node : Option String
  model_pricing : Pricing
deriving DecidableEq, Repr

/-- The static `self.pricing` table of `CostTracker.__init__`. -/
def pricingTable : List (String × Pricing) :=
  [("gpt-4o-mini", { prompt := 0.00015, completion := 0.0006 }),
   ("gpt-4o", { prompt := 0.0005, completion := 0.0015 }),
   ("gpt-4", { prompt := 0.00075, completion := 0.0045 })]

/-- The fallback pricing used for model names absent from the table. -/
def defaultPricing : Pricing := { prompt := 0.0001, completion := 0.0002 }

/-- First-match lookup in an association list, as a Python dict `[]` /
`.get` does. -/
def lookupNode : List (String × NodeCost) → String → Option NodeCost
  | [], _ => none
  | (k, d) :: rest, n => if k = n then some d else lookupNode rest n

/-- In-place update of the entry at a key, as `self.node_costs[k][f] += x`
does.  Keys are never duplicated by the inserter, so at most one entry
changes. -/
def updateNode (l : List (String × NodeCost)) (n : String) (f : NodeCost → NodeCost) :
    List (String × NodeCost) :=
  l.map (fun p => if p.1 = n then (p.1, f p.2) else p)

/-- The key list of an association list. -/
def keysOf (l : List (String × NodeCost)) : List String := l.map Prod.fst

/-- `CostTracker.__init__(model_name)`. -/
def CostTracker.init (model_name : String) : CostTracker :=
  { model_name := model_name
    total_tokens := 0
    prompt_tokens := 0
    completion_tokens := 0
    total_cost := 0
    calls := 0
    node_costs := []
    current_node := none
    model_pricing := (pricingTable.lookup model_name).getD defaultPricing }

/-- `CostTracker.set_current_node(node_name)`: records the current node and
creates a zeroed record for it if it has none yet. -/
def set_current_node (t : CostTracker) (node_name : String) : CostTracker :=
  let t := { t with current_node := some node_name }
  match lookupNode t.node_costs node_name with
  | some _ => t
  | none => { t with node_costs := t.node_costs ++ [(node_name, NodeCost.zero)] }

/-- `CostTracker.on_llm_start`: counts the call globally and, when a current
node is set, against that node.  (The source indexes
`self.node_costs[self.current_node]` directly; the key is always present
because `set_current_node` inserted it.) -/
def on_llm_start (t : CostTracker) : CostTracker :=
  let t := { t with calls := t.calls + 1 }
  match t.current_node with
  | none => t
  | some node =>
      let updated := updateNode t.node_costs node (fun d => { d with calls := d.calls + 1 })
      { t with node_costs := updated }

/-- `CostTracker.on_llm_end(response)`: extracts token usage (missing fields
default to zero), accumulates global token and cost counters, and mirrors
the accumulation on the current node's record when one is set. -/
def on_llm_end (t : CostTracker) (response : LLMResult) : CostTracker :=
  match response.llm_output with
  | none => t
  | some llm_out =>
    let token_usage := llm_out.token_usage.getD { prompt_tokens := none, completion_tokens := none }
    let prompt_tokens := token_usage.prompt_tokens.getD 0
    let completion_tokens := token_usage.completion_tokens.getD 0
    let t := { t with
      prompt_tokens := t.prompt_tokens + prompt_tokens
      completion_tokens := t.completion_tokens + completion_tokens
      total_tokens := t.total_tokens + (prompt_tokens + completion_tokens) }
    let prompt_cost : ℚ := prompt_tokens * t.model_pricing.prompt / 1000
    let completion_cost : ℚ := completion_tokens * t.model_pricing.completion / 1000
    let call_cost := prompt_cost + completion_cost
    let t := { t with total_cost := t.total_cost + call_cost }
    match t.current_node with
    | none => t
    | some node =>
        let updated := updateNode t.node_costs node (fun d =>
          { d with
            prompt_tokens := d.prompt_tokens + prompt_tokens
            completion_tokens := d.completion_tokens + completion_tokens
            total_tokens := d.total_tokens + (prompt_tokens + completion_tokens)
            cost := d.cost + call_cost })
        { t with node_costs := updated }

/-- The report of `CostTracker.get_cost_summary`, with numeric values kept
numeric (the source renders the costs as dollar strings) and the wall-clock
`duration_seconds` field omitted. -/
structure CostSummary where
  model : String
  total_cost : ℚ
  prompt_tokens : Nat
  completion_tokens : Nat
  total_tokens : Nat
  calls : Nat
  cost_per_node : List (String × NodeCost)
deriving DecidableEq, Repr

/-- `CostTracker.get_cost_summary()`: the per-node map is reported key for
key. -/
def get_cost_summary (t : CostTracker) : CostSummary :=
  { model := t.model_name
    total_cost := t.total_cost
    prompt_tokens := t.prompt_tokens
    completion_tokens := t.completion_tokens
    total_tokens := t.total_tokens
    calls := t.calls
    cost_per_node := t.node_costs }

/-- One section of the planned summary (`Section` pydantic model). -/
structure Section where
  name : String
  description : String
deriving DecidableEq, Repr

/-- The graph state of `audio_agent.py` (`State` TypedDict).  The
`completed_sections` channel carries the `operator.add` reducer in the
source; here updates to it are applied explicitly (see `apply_updates`). -/
structure State where
  transcription : String
  transcription_language : String
  sections : List Section
  completed_sections : List String
  final_summary : String
  cost_summary : Option CostSummary
deriving DecidableEq, Repr

/-- The worker-local state (`WorkerState` TypedDict). -/
structure WorkerState where
  «section» : Section
  completed_sections : List String
deriving DecidableEq, Repr

/-- Message roles used by the agent (`SystemMessage` / `HumanMessage`). -/
inductive ChatRole
  | system
  | human
deriving DecidableEq, Repr

/-- One chat message sent to the provider. -/
structure ChatMessage where
  role : ChatRole
  content : String
deriving DecidableEq, Repr

/-- The planning request built by `AudioAgent.orchestrator`. -/
def orchestrator_messages (s : State) : List ChatMessage :=
  [{ role := ChatRole.system,
     content := "Generate a plan for the summary in " ++ s.transcription_language ++ ". Do not include introduction or conclusion, rather, focus on the main topics and specific details accompanying them." },
   { role := ChatRole.human,
     content := "Here is the trascription from the audio: " ++ s.transcription }]

/-- The request one worker sends (`AudioAgent.summarize_audio`): built from
the section descriptor alone. -/
def worker_messages (w : WorkerState) : List ChatMessage :=
  [{ role := ChatRole.system,
     content := "Write a summary section following the provided topic name and description. Include no preamble for each section. Make sure it is in appropriate language." },
   { role := ChatRole.human,
     content := "Here is the section name: " ++ w.«section».name ++ " and description: " ++ w.«section».description }]

/-- `AudioAgent.assign_workers`: one `Send("summarize_audio", {"section": s})`
payload per planned section, in the plan's order.  The payload carries only
the section; the `completed_sections` channel of the worker state starts
empty. -/
def assign_workers (s : State) : List WorkerState :=
  s.sections.map (fun sec => { «section» := sec, completed_sections := [] })

/-- Oracle supplying the provider responses of one run: the planned sections
and token usage of the planner call, the content and usage of each worker
call (indexed by the worker task's dispatch position), and the content and
usage of the synthesizer call. -/
structure RunOracle where
  planner_sections : List Section
  planner_usage : LLMResult
  worker_content : Nat → String
  worker_usage : Nat → LLMResult
  synth_content : String
  synth_usage : LLMResult

/-- One `llm.invoke`: the attached callback fires `on_llm_start`, then the
provider responds and `on_llm_end` fires. -/
def llm_invoke (t : CostTracker) (response : LLMResult) : CostTracker :=
  on_llm_end (on_llm_start t) response

/-- The compression instructions string built by `AudioAgent.synthesizer`
(whitespace normalized). -/
def synth_instructions (telegram_len_limit completed_summary_len : Nat) : String :=
  "The summary is too long. Please summarize it further while keeping the tone and style without change. Keep in mind telegram's character limit is "
    ++ toString telegram_len_limit ++ " and the current summary is "
    ++ toString completed_summary_len ++ ".\n\nPlace the title and the summary in the following format:\n<b>Topic1:</b> <i>Summary of the topic</i>\n<b>Topic2:</b> <i>Summary of the topic</i>\n\nIMPORTANT: Make sure your final summary is formmatted with ONLY <b></b> for bold and <i></i> for italics. Nothing more is allowed. \nBold the titles instead of using <h2> tags."

/-- `AudioAgent.synthesizer`: joins the completed sections with a blank
line, measures the result against the 4096-character limit, and then -
unconditionally, with no branch on that comparison - sends one compression
request and returns its content together with the cost summary.  No
`set_current_node` call happens here. -/
def synthesizer_node (o : RunOracle) (t : CostTracker) (s : State) : CostTracker × State :=
  let completed_summary := String.intercalate "\n\n" s.completed_sections
  let completed_summary_len := completed_summary.length
  let telegram_len_limit := 4096
  let instructions := synth_instructions telegram_len_limit completed_summary_len
  let _messages : List ChatMessage :=
    [{ role := ChatRole.system, content := instructions },
     { role := ChatRole.human, content := completed_summary }]
  let t := llm_invoke t o.synth_usage
  let final_summary := o.synth_content
  let cost_summary := get_cost_summary t
  (t, { s with final_summary := final_summary, cost_summary := some cost_summary })

/-- `AudioAgent.orchestrator`: sets the current cost node to
`"orchestrator"` and makes the planning call. -/
def orchestrator_node (o : RunOracle) (t : CostTracker) (s : State) : CostTracker × State :=
  let t := set_current_node t "orchestrator"
  let _messages := orchestrator_messages s
  let t := llm_invoke t o.planner_usage
  (t, { s with sections := o.planner_sections })

/-- The cost-tracker side effects of one worker task (`summarize_audio`):
sets the current node to `"summarize_audio"` and makes one call. -/
def summarize_audio_step (o : RunOracle) (t : CostTracker) (i : Nat) : CostTracker :=
  let t := set_current_node t "summarize_audio"
  llm_invoke t (o.worker_usage i)

/-- The state update returned by worker task `i`:
`{"completed_sections": [summary.content]}`. -/
def worker_update (o : RunOracle) (i : Nat) : List String := [o.worker_content i]

/-- The updates of all `n` worker tasks, in dispatch (plan) order. -/
def worker_updates (o : RunOracle) (n : Nat) : List (List String) :=
  (List.range n).map (worker_update o)

/-- The `operator.add` reducer on the `completed_sections` channel: the graph
runtime collects the updates of the superstep's tasks and applies them in
task (dispatch) order, deterministically, regardless of the order in which
the tasks finished. -/
def apply_updates (acc : List String) (updates : List (List String)) : List String :=
  updates.foldl (fun a u => a ++ u) acc

/-- One full pipeline run (`AudioAgent.process_transcription`): fresh
tracker, orchestrator, fan-out over the planned sections, fan-in,
synthesizer.  `arrival` is the order in which the worker tasks finish;
tracker callbacks fire in that order, while the reducer applies the state
updates in dispatch order. -/
def run_pipeline (model_name : String) (o : RunOracle) (arrival : List Nat)
    (transcription language : String) : CostTracker × State :=
  let t := CostTracker.init model_name
  let s : State :=
    { transcription := transcription, transcription_language := language,
      sections := [], completed_sections := [], final_summary := "",
      cost_summary := none }
  let (t, s) := orchestrator_node o t s
  let t := arrival.foldl (summarize_audio_step o) t
  let s := { s with
    completed_sections := apply_updates s.completed_sections (worker_updates o s.sections.length) }
  synthesizer_node o t s

/-- A chat message of the standalone OpenAI service
(`{"role": ..., "content": ...}`). -/
structure OAIMessage where
  role : String
  content : String
deriving DecidableEq, Repr

/-- The summarization prompt of
`transcription_processor.summarize_transcription` (whitespace normalized). -/
def transcription_summarize_prompt (language : String) : String :=
  "The following is a transcription from an audio message in " ++ language
    ++ ". Please summarize the message following these rules:\n1. An audio is sent to you from a chat the user has with somebody else, keep the summary down to the main topics and supporting details.\n2. Summary must be brief but mention the main topics and main points while narrating it in the order of appearance of the topics, tone and style of the transcription.\n3. Do not include any preamble or greetings in the summary.\n4. Make sure the final summary is strongly based on the received message.\n5. Make sure the final summary is in "
    ++ language
    ++ ".\n6. It is mandatory that the summary is formmated with html tags supported by Telegram to escape these special characters."

/-- `summarize_transcription`: builds the prompt, calls the service, and on
any error returns the original transcription unchanged. -/
def summarize_transcription (transcription language : String)
    (generate_chat_completion : List OAIMessage → Except String String) : String :=
  let messages : List OAIMessage :=
    [{ role := "developer", content := transcription_summarize_prompt language },
     { role := "user", content := transcription }]
  match generate_chat_completion messages with
  | Except.ok summary => summary
  | Except.error _ => transcription

/-- Observable side effects of `MessageHandler.handle_audio`. -/
inductive Effect
  | send_message (text : String)
  | transcribe_audio
  | run_summarization_agent
  | edit_message (text : String)
deriving DecidableEq, Repr

/-- An `azure.functions.HttpResponse`. -/
structure HttpResponse where
  body : String
  status_code : Nat
deriving DecidableEq, Repr

/-- `max_audio_duration = 10 * 60` seconds. -/
def max_audio_duration : Nat := 10 * 60

/-- `summarization_threshold = 250` seconds. -/
def summarization_threshold : Nat := 250

/-- `MessageHandler.handle_audio` on a message whose audio reports the given
duration: the effect trace (messages sent or edited, transcription,
summarization-agent invocation) and the HTTP response.  `transcription`,
`language` and `agent_summary` stand for the transcriber's and the agent's
outputs. -/
def handle_audio (duration : Nat) (transcription language agent_summary : String) :
    List Effect × HttpResponse :=
  if duration < max_audio_duration then
    let effects := [Effect.send_message "Transcribing audio message...", Effect.transcribe_audio]
    if duration > summarization_threshold then
      (effects ++ [Effect.edit_message "Audio message transcribed. Summarizing...",
                   Effect.run_summarization_agent,
                   Effect.edit_message agent_summary],
       { body := "Transcription has been summarized", status_code := 200 })
    else
      (effects ++ [Effect.edit_message ("[" ++ language ++ "] Transcription:\n" ++ transcription)],
       { body := "Transcription has been sent", status_code := 200 })
  else
    ([Effect.send_message ("Audio messages longer than " ++ toString (max_audio_duration / 60) ++ " minutes are not supported.")],
     { body := "Audio messages longer than " ++ toString (max_audio_duration / 60) ++ " minute are not supported.",
       status_code := 200 })

/-- One event in the lifetime of a cost tracker. -/
inductive TrackerEvent
  | set_node (node_name : String)
  | start_call
  | end_call (response : LLMResult)
deriving Repr

/-- Apply one tracker event. -/
def tracker_step (t : CostTracker) (e : TrackerEvent) : CostTracker :=
  match e with
  | TrackerEvent.set_node n => set_current_node t n
  | TrackerEvent.start_call => on_llm_start t
  | TrackerEvent.end_call r => on_llm_end t r

/-- Run a tracker through a list of events. -/
def run_events (t : CostTracker) (es : List TrackerEvent) : CostTracker :=
  es.foldl tracker_step t

/-- `node_before_end b es` holds when every `end_call` in `es` comes after
some `set_node` (`b` records whether a node is already set).  Every pipeline
run has this shape: the orchestrator sets its node before the first call. -/
def node_before_end : Bool → List TrackerEvent → Bool
  | _, [] => true
  | _, TrackerEvent.set_node _ :: es => node_before_end true es
  | b, TrackerEvent.start_call :: es => node_before_end b es
  | b, TrackerEvent.end_call _ :: es => b && node_before_end b es

/-- Sum of the per-node `cost` fields. -/
def node_cost_sum (l : List (String × NodeCost)) : ℚ := (l.map (fun p => p.2.cost)).sum

/-- Sum of the per-node `prompt_tokens` fields. -/
def node_prompt_sum (l : List (String × NodeCost)) : Nat := (l.map (fun p => p.2.prompt_tokens)).sum

/-- Sum of the per-node `completion_tokens` fields. -/
def node_completion_sum (l : List (String × NodeCost)) : Nat := (l.map (fun p => p.2.completion_tokens)).sum

/-- Sum of the per-node `total_tokens` fields. -/
def node_total_sum (l : List (String × NodeCost)) : Nat := (l.map (fun p => p.2.total_tokens)).sum

/-- The per-node records sum to the global counters. -/
def sums_ok (t : CostTracker) : Prop :=
  node_cost_sum t.node_costs = t.total_cost ∧
  node_prompt_sum t.node_costs = t.prompt_tokens ∧
  node_completion_sum t.node_costs = t.completion_tokens ∧
  node_total_sum t.node_costs = t.total_tokens

/-- The node-key list of the cost report attached to a final state. -/
def report_node_keys (s : State) : List String :=
  match s.cost_summary with
  | none => []
  | some cs => keysOf cs.cost_per_node

/-- Key well-formedness of a tracker: node keys are unique (the source's
`node_costs` is a Python dict) and the current node, when set, has a record
(`set_current_node` created it before any call could see it). -/
def keys_ok (t : CostTracker) : Prop :=
  (keysOf t.node_costs).Nodup ∧
  ∀ n, t.current_node = some n → (lookupNode t.node_costs n).isSome

/-- A concrete provider response reporting 10 prompt and 5 completion
tokens. -/
def usage_10_5 : LLMResult :=
  { llm_output := some { token_usage := some { prompt_tokens := some 10, completion_tokens := some 5 } } }

/-- A 4097-character string: a worker summary already above the Telegram
limit on its own. -/
def bigText : String := String.mk (List.replicate 4097 'a')

/-- Oracle of a concrete under-budget run: one planned section whose worker
answers "hi"; the synthesizer's compression request returns different
text. -/
def oracle_small : RunOracle :=
  { planner_sections := [{ name := "Topic", description := "Desc" }]
    planner_usage := usage_10_5
    worker_content := fun _ => "hi"
    worker_usage := fun _ => usage_10_5
    synth_content := "compressed output"
    synth_usage := usage_10_5 }

/-- Oracle of a concrete over-budget run: one planned section whose worker
answers with 4097 characters. -/
def oracle_big : RunOracle :=
  { planner_sections := [{ name := "Topic", description := "Desc" }]
    planner_usage := usage_10_5
    worker_content := fun _ => bigText
    worker_usage := fun _ => usage_10_5
    synth_content := "short compressed output"
    synth_usage := usage_10_5 }

/-- The prompt-token count `on_llm_end` extracts from a present
`llm_output` (`token_usage.get("prompt_tokens", 0)`). -/
def extracted_pt (lo : LLMOutput) : Nat :=
  (lo.token_usage.getD { prompt_tokens := none, completion_tokens := none }).prompt_tokens.getD 0

/-- The completion-token count `on_llm_end` extracts from a present
`llm_output`. -/
def extracted_ct (lo : LLMOutput) : Nat :=
  (lo.token_usage.getD { prompt_tokens := none, completion_tokens := none }).completion_tokens.getD 0

/-- The cost `on_llm_end` attributes to one call. -/
def call_cost_of (t : CostTracker) (lo : LLMOutput) : ℚ :=
  (extracted_pt lo : ℚ) * t.model_pricing.prompt / 1000
    + (extracted_ct lo : ℚ) * t.model_pricing.completion / 1000

/-- The per-node record of the worker stage in a small concrete run. -/
def worker_node_record : NodeCost := { prompt_tokens := 10, completion_tokens := 5, total_tokens := 15, cost := 0.005, calls := 1 }

/-- A concrete tracker as the worker stage leaves it: current node still
`"summarize_audio"`, one planner call and one worker call recorded. -/
def worker_stage_tracker : CostTracker := { model_name := "gpt-4o-mini", total_tokens := 30, prompt_tokens := 20, completion_tokens := 10, total_cost := 0.01, calls := 2, node_costs := [("orchestrator", worker_node_record), ("summarize_audio", worker_node_record)], current_node := some "summarize_audio", model_pricing := { prompt := 0.00015, completion := 0.0006 } }

/-- A concrete pipeline state right before synthesis, carrying one
over-budget completed section. -/
def state_before_synthesis : State := { transcription := "tr", transcription_language := "en", sections := [{ name := "Topic", description := "Desc" }], completed_sections := [bigText], final_summary := "", cost_summary := none }

theorem updateNode_eq_self (l : List (String × NodeCost)) (n : String)
    (f : NodeCost → NodeCost) (hf : ∀ d, f d = d) : updateNode l n f = l := by
  induction l with
  | nil => rfl
  | cons p rest ih =>
    simp only [updateNode, List.map_cons] at ih ⊢
    rw [ih]
    by_cases hp : p.1 = n
    · simp [hf, ← hp]
    · simp [hp]

theorem on_llm_start_calls (t : CostTracker) : (on_llm_start t).calls = t.calls + 1 := by
  cases h : t.current_node <;> simp [on_llm_start, h]

theorem on_llm_end_calls (t : CostTracker) (r : LLMResult) :
    (on_llm_end t r).calls = t.calls := by
  cases hr : r.llm_output with
  | none => simp [on_llm_end, hr]
  | some lo => cases h : t.current_node <;> simp [on_llm_end, hr, h]

/-- C6: the cost tracker never raises on an LLM-end event lacking token-usage
metadata: a missing `llm_output`, a missing `token_usage` block, or missing
prompt and completion counts leave the tracker exactly as it was (the
embedding's `on_llm_end` is a total function, so no exception is possible). -/
theorem c6_missing_usage_leaves_tracker_unchanged (t : CostTracker) (r : LLMResult) :
    (r.llm_output = none → on_llm_end t r = t) ∧
    (∀ llm_out, r.llm_output = some llm_out → llm_out.token_usage = none →
      on_llm_end t r = t) ∧
    (∀ llm_out tu, r.llm_output = some llm_out → llm_out.token_usage = some tu →
      tu.prompt_tokens = none → tu.completion_tokens = none → on_llm_end t r = t) := by
  refine ⟨?_, ?_, ?_⟩
  · intro h
    simp [on_llm_end, h]
  · intro lo hlo hu
    obtain ⟨mn, tt, pt, ct, tc, cl, nc, cn, mp⟩ := t
    cases cn with
    | none => simp [on_llm_end, hlo, hu]
    | some node => simp [on_llm_end, hlo, hu, updateNode_eq_self]
  · intro lo tu hlo hu hp hc
    obtain ⟨mn, tt, pt, ct, tc, cl, nc, cn, mp⟩ := t
    cases cn with
    | none => simp [on_llm_end, hlo, hu, hp, hc]
    | some node => simp [on_llm_end, hlo, hu, hp, hc, updateNode_eq_self]

/-- C6 witness. -/
theorem c6_witness :
    on_llm_end (CostTracker.init "gpt-4o-mini") { llm_output := none }
      = CostTracker.init "gpt-4o-mini" :=
  (c6_missing_usage_leaves_tracker_unchanged (CostTracker.init "gpt-4o-mini")
    { llm_output := none }).1 rfl

/-- C7: each recorded call adds
`prompt_tokens * prompt_rate / 1000 + completion_tokens * completion_rate / 1000`
to the total cost, where the rates are looked up in the static pricing table
at tracker construction; any model name absent from the table gets the
default fallback rates instead of failing. -/
theorem c7_cost_formula_and_pricing_fallback (t : CostTracker) (p c : Nat) :
    (on_llm_end t { llm_output := some { token_usage := some { prompt_tokens := some p, completion_tokens := some c } } }).total_cost
      = t.total_cost
        + ((p : ℚ) * t.model_pricing.prompt / 1000
            + (c : ℚ) * t.model_pricing.completion / 1000) ∧
    (∀ model_name : String,
      (CostTracker.init model_name).model_pricing
        = (pricingTable.lookup model_name).getD defaultPricing) ∧
    (∀ model_name : String,
      model_name ≠ "gpt-4o-mini" → model_name ≠ "gpt-4o" → model_name ≠ "gpt-4" →
      (CostTracker.init model_name).model_pricing = defaultPricing) := by
  refine ⟨?_, fun _ => rfl, ?_⟩
  · obtain ⟨mn, tt, pt, ct, tc, cl, nc, cn, mp⟩ := t
    cases cn <;> simp [on_llm_end]
  · intro m h1 h2 h3
    have b1 : (m == "gpt-4o-mini") = false := beq_eq_false_iff_ne.mpr h1
    have b2 : (m == "gpt-4o") = false := beq_eq_false_iff_ne.mpr h2
    have b3 : (m == "gpt-4") = false := beq_eq_false_iff_ne.mpr h3
    simp [CostTracker.init, pricingTable, List.lookup, b1, b2, b3]

/-- C7 witness. -/
theorem c7_witness :
    (on_llm_end (CostTracker.init "gpt-4o-mini") { llm_output := some { token_usage := some { prompt_tokens := some 1000, completion_tokens := some 2000 } } }).total_cost
      = (CostTracker.init "gpt-4o-mini").total_cost
        + ((1000 : ℚ) * (CostTracker.init "gpt-4o-mini").model_pricing.prompt / 1000
            + (2000 : ℚ) * (CostTracker.init "gpt-4o-mini").model_pricing.completion / 1000) ∧
    (CostTracker.init "a-model-not-in-the-table").model_pricing = defaultPricing :=
  ⟨(c7_cost_formula_and_pricing_fallback (CostTracker.init "gpt-4o-mini") 1000 2000).1,
   (c7_cost_formula_and_pricing_fallback (CostTracker.init "gpt-4o-mini") 1000 2000).2.2
     "a-model-not-in-the-table" (by decide) (by decide) (by decide)⟩

/-- C9: when the Chat-Completion call of the standalone summarization path
errors, `summarize_transcription` returns the original transcription
unchanged. -/
theorem c9_error_falls_back_to_transcription (transcription language err : String)
    (generate_chat_completion : List OAIMessage → Except String String)
    (h : generate_chat_completion
        [{ role := "developer", content := transcription_summarize_prompt language },
         { role := "user", content := transcription }] = Except.error err) :
    summarize_transcription transcription language generate_chat_completion
      = transcription := by
  simp [summarize_transcription, h]

/-- C9 witness. -/
theorem c9_witness :
    summarize_transcription "hola que tal" "es" (fun _ => Except.error "connection lost")
      = "hola que tal" :=
  c9_error_falls_back_to_transcription "hola que tal" "es" "connection lost"
    (fun _ => Except.error "connection lost") rfl

/-- C10: `handle_audio` transcribes only below 600 seconds of reported
duration; at 600 seconds or more it sends the "not supported" reply and
returns HTTP 200 without transcribing; among transcribed messages the
summarization agent runs only above 250 seconds, otherwise the raw
transcription is sent back. -/
theorem c10_handle_audio_duration_thresholds
    (duration : Nat) (transcription language agent_summary : String) :
    (600 ≤ duration →
      handle_audio duration transcription language agent_summary
        = ([Effect.send_message "Audio messages longer than 10 minutes are not supported."],
           { body := "Audio messages longer than 10 minute are not supported.", status_code := 200 }) ∧
      Effect.transcribe_audio ∉ (handle_audio duration transcription language agent_summary).1) ∧
    (duration < 600 →
      Effect.transcribe_audio ∈ (handle_audio duration transcription language agent_summary).1 ∧
      (handle_audio duration transcription language agent_summary).2.status_code = 200) ∧
    (250 < duration → duration < 600 →
      Effect.run_summarization_agent ∈ (handle_audio duration transcription language agent_summary).1 ∧
      Effect.edit_message agent_summary ∈ (handle_audio duration transcription language agent_summary).1 ∧
      (handle_audio duration transcription language agent_summary).2
        = { body := "Transcription has been summarized", status_code := 200 }) ∧
    (duration ≤ 250 → duration < 600 →
      Effect.run_summarization_agent ∉ (handle_audio duration transcription language agent_summary).1 ∧
      Effect.edit_message ("[" ++ language ++ "] Transcription:\n" ++ transcription)
        ∈ (handle_audio duration transcription language agent_summary).1 ∧
      (handle_audio duration transcription language agent_summary).2
        = { body := "Transcription has been sent", status_code := 200 }) := by
  refine ⟨?_, ?_, ?_, ?_⟩
  · intro h
    have hge : ¬ (duration < max_audio_duration) := by
      simp only [max_audio_duration]
      omega
    rw [handle_audio, if_neg hge]
    exact ⟨by decide, by simp⟩
  · intro h
    have hlt : duration < max_audio_duration := by
      simp only [max_audio_duration]
      omega
    rw [handle_audio, if_pos hlt]
    by_cases hs : duration > summarization_threshold
    · rw [if_pos hs]
      exact ⟨by simp, rfl⟩
    · rw [if_neg hs]
      exact ⟨by simp, rfl⟩
  · intro h1 h2
    have hlt : duration < max_audio_duration := by
      simp only [max_audio_duration]
      omega
    have hs : duration > summarization_threshold := by
      simp only [summarization_threshold]
      omega
    rw [handle_audio, if_pos hlt, if_pos hs]
    exact ⟨by simp, by simp, rfl⟩
  · intro h1 h2
    have hlt : duration < max_audio_duration := by
      simp only [max_audio_duration]
      omega
    have hs : ¬ (duration > summarization_threshold) := by
      simp only [summarization_threshold]
      omega
    rw [handle_audio, if_pos hlt, if_neg hs]
    exact ⟨by simp, by simp, rfl⟩

/-- C10 witness: the three regimes at durations 600, 300 and 100. -/
theorem c10_witness :
    handle_audio 600 "text" "en" "summary"
      = ([Effect.send_message "Audio messages longer than 10 minutes are not supported."],
         { body := "Audio messages longer than 10 minute are not supported.", status_code := 200 }) ∧
    Effect.run_summarization_agent ∈ (handle_audio 300 "text" "en" "summary").1 ∧
    Effect.run_summarization_agent ∉ (handle_audio 100 "text" "en" "summary").1 :=
  ⟨((c10_handle_audio_duration_thresholds 600 "text" "en" "summary").1 (by decide)).1,
   ((c10_handle_audio_duration_thresholds 300 "text" "en" "summary").2.2.1 (by decide) (by decide)).1,
   ((c10_handle_audio_duration_thresholds 100 "text" "en" "summary").2.2.2 (by decide) (by decide)).1⟩

/-- C8: a worker request is a function of its assigned section descriptor
alone: worker states agreeing on the section produce identical messages
whatever else differs, and full pipeline states agreeing on the planned
sections dispatch identical message lists even when their transcriptions or
accumulated summaries differ. -/
theorem c8_worker_request_depends_only_on_section
    (w1 w2 : WorkerState) (s1 s2 : State)
    (hw : w1.«section» = w2.«section») (hs : s1.sections = s2.sections) :
    worker_messages w1 = worker_messages w2 ∧
    (assign_workers s1).map worker_messages = (assign_workers s2).map worker_messages := by
  constructor
  · simp [worker_messages, hw]
  · simp [assign_workers, hs]

/-- C8 witness: same section, different accumulated output and different
transcriptions. -/
theorem c8_witness :
    worker_messages { «section» := { name := "Budget", description := "Q1 financials" }, completed_sections := [] }
      = worker_messages { «section» := { name := "Budget", description := "Q1 financials" }, completed_sections := ["someone elses summary"] } ∧
    (assign_workers { transcription := "first transcription", transcription_language := "en", sections := [{ name := "Budget", description := "Q1 financials" }], completed_sections := [], final_summary := "", cost_summary := none }).map worker_messages
      = (assign_workers { transcription := "a completely different transcription", transcription_language := "en", sections := [{ name := "Budget", description := "Q1 financials" }], completed_sections := ["other"], final_summary := "done", cost_summary := none }).map worker_messages :=
  c8_worker_request_depends_only_on_section _ _ _ _ rfl rfl

/-- C1 (amended): the synthesizer does not branch on the 4096-character
budget: for every completed-sections sequence - also when the concatenation
is within budget - it issues exactly one compression Chat-Completion request
and returns that request's content, not the concatenation. -/
theorem c1_synthesizer_always_compresses (o : RunOracle) (t : CostTracker) (s : State) :
    (synthesizer_node o t s).2.final_summary = o.synth_content ∧
    (synthesizer_node o t s).1.calls = t.calls + 1 := by
  constructor
  · rfl
  · show (llm_invoke t o.synth_usage).calls = t.calls + 1
    rw [llm_invoke, on_llm_end_calls, on_llm_start_calls]

/-- C1 counterexample: a concrete run whose concatenation "hi" is well
within the 4096 budget, yet the pipeline issues a third Chat-Completion
request (planner, worker, synthesizer) and the final summary is the
compression output, not the concatenation. -/
theorem c1_counterexample :
    (String.intercalate "\n\n" (run_pipeline "gpt-4o-mini" oracle_small [0] "tr" "en").2.completed_sections).length ≤ 4096 ∧
    (run_pipeline "gpt-4o-mini" oracle_small [0] "tr" "en").2.final_summary
      ≠ String.intercalate "\n\n" (run_pipeline "gpt-4o-mini" oracle_small [0] "tr" "en").2.completed_sections ∧
    (run_pipeline "gpt-4o-mini" oracle_small [0] "tr" "en").1.calls = 3 := by
  refine ⟨by decide, by decide, by decide⟩

theorem foldl_append_singletons (f : Nat → String) (l : List Nat) (acc : List String) :
    ((l.map (fun i => [f i])).foldl (fun a u => a ++ u) acc) = acc ++ l.map f := by
  induction l generalizing acc with
  | nil => simp
  | cons x xs ih => simp [ih]

/-- C2: for every pipeline run and every worker completion order, the
sequence handed to the synthesizer is the reducer's task-ordered
accumulation: slot `i` holds worker `i`'s summary, the workers having been
dispatched in the planner's emitted section order, so the result is
completion-order independent. -/
theorem c2_reassembly_is_plan_ordered (model_name transcription language : String)
    (o : RunOracle) (a1 a2 : List Nat) :
    (run_pipeline model_name o a1 transcription language).2.completed_sections
      = (List.range o.planner_sections.length).map o.worker_content ∧
    (run_pipeline model_name o a1 transcription language).2.completed_sections
      = (run_pipeline model_name o a2 transcription language).2.completed_sections ∧
    (run_pipeline model_name o a1 transcription language).2.sections = o.planner_sections := by
  refine ⟨?_, rfl, rfl⟩
  show apply_updates [] (worker_updates o o.planner_sections.length)
      = (List.range o.planner_sections.length).map o.worker_content
  rw [apply_updates, worker_updates]
  have h := foldl_append_singletons o.worker_content (List.range o.planner_sections.length) []
  simpa using h

theorem keysOf_updateNode (l : List (String × NodeCost)) (n : String) (f : NodeCost → NodeCost) :
    keysOf (updateNode l n f) = keysOf l := by
  induction l with
  | nil => rfl
  | cons p rest ih =>
    simp only [updateNode, keysOf, List.map_cons] at ih ⊢
    by_cases hp : p.1 = n <;> simp [hp, ih]

theorem keysOf_on_llm_start (t : CostTracker) :
    keysOf (on_llm_start t).node_costs = keysOf t.node_costs := by
  cases h : t.current_node <;> simp [on_llm_start, h, keysOf_updateNode]

theorem keysOf_on_llm_end (t : CostTracker) (r : LLMResult) :
    keysOf (on_llm_end t r).node_costs = keysOf t.node_costs := by
  cases hr : r.llm_output with
  | none => simp [on_llm_end, hr]
  | some lo => cases h : t.current_node <;> simp [on_llm_end, hr, h, keysOf_updateNode]

theorem keysOf_llm_invoke (t : CostTracker) (r : LLMResult) :
    keysOf (llm_invoke t r).node_costs = keysOf t.node_costs := by
  rw [llm_invoke, keysOf_on_llm_end, keysOf_on_llm_start]

theorem mem_keys_set_current_node {t : CostTracker} {n k : String}
    (h : k ∈ keysOf (set_current_node t n).node_costs) :
    k ∈ keysOf t.node_costs ∨ k = n := by
  simp only [set_current_node] at h
  cases hl : lookupNode t.node_costs n with
  | some d =>
    rw [hl] at h
    exact Or.inl h
  | none =>
    rw [hl] at h
    simp only [keysOf, List.map_append, List.map_cons, List.map_nil, List.mem_append,
      List.mem_singleton] at h
    exact h

theorem mem_keys_worker_fold {o : RunOracle} {k : String} (arrival : List Nat) (t : CostTracker)
    (h : k ∈ keysOf (arrival.foldl (summarize_audio_step o) t).node_costs) :
    k ∈ keysOf t.node_costs ∨ k = "summarize_audio" := by
  induction arrival generalizing t with
  | nil => exact Or.inl h
  | cons i rest ih =>
    rcases ih (summarize_audio_step o t i) h with h' | h'
    · simp only [summarize_audio_step] at h'
      rw [keysOf_llm_invoke] at h'
      exact mem_keys_set_current_node h'
    · exact Or.inr h'

theorem keys_after_orchestrator (model_name : String) (o : RunOracle) :
    keysOf (llm_invoke (set_current_node (CostTracker.init model_name) "orchestrator")
      o.planner_usage).node_costs = ["orchestrator"] := by
  rw [keysOf_llm_invoke]
  simp [set_current_node, CostTracker.init, lookupNode, keysOf]

/-- C4 (amended): the node names keyed in any run's cost report are among
`"orchestrator"` and `"summarize_audio"` (every worker records under the
single `"summarize_audio"` key, and the synthesizer call lands there too);
the spec's names `"planner"`, `"worker"`, `"synthesizer"` never occur. -/
theorem c4_report_node_names (model_name transcription language : String)
    (o : RunOracle) (arrival : List Nat) (k : String)
    (hk : k ∈ report_node_keys (run_pipeline model_name o arrival transcription language).2) :
    k = "orchestrator" ∨ k = "summarize_audio" := by
  have heq : report_node_keys (run_pipeline model_name o arrival transcription language).2
      = keysOf (llm_invoke (arrival.foldl (summarize_audio_step o)
          (llm_invoke (set_current_node (CostTracker.init model_name) "orchestrator")
            o.planner_usage)) o.synth_usage).node_costs := rfl
  rw [heq, keysOf_llm_invoke] at hk
  rcases mem_keys_worker_fold arrival _ hk with h' | h'
  · rw [keys_after_orchestrator] at h'
    simp only [List.mem_singleton] at h'
    exact Or.inl h'
  · exact Or.inr h'

/-- C4 counterexample: a concrete run's report is keyed by
`"orchestrator"`, which is not one of the claimed node names. -/
theorem c4_counterexample :
    "orchestrator" ∈ report_node_keys (run_pipeline "gpt-4o-mini" oracle_small [0] "tr" "en").2 ∧
    "orchestrator" ∉ ["planner", "worker", "synthesizer"] := by
  exact ⟨by decide, by decide⟩

/-- C4 witness. -/
theorem c4_witness :
    ("orchestrator" : String) = "orchestrator" ∨ ("orchestrator" : String) = "summarize_audio" :=
  c4_report_node_names "gpt-4o-mini" "x" "es" oracle_small [0] "orchestrator" (by decide)

theorem lookupNode_cons (k : String) (d : NodeCost) (rest : List (String × NodeCost))
    (n : String) :
    lookupNode ((k, d) :: rest) n = if k = n then some d else lookupNode rest n := rfl

theorem updateNode_cons (k : String) (d : NodeCost) (rest : List (String × NodeCost))
    (n : String) (f : NodeCost → NodeCost) :
    updateNode ((k, d) :: rest) n f
      = (if k = n then (k, f d) else (k, d)) :: updateNode rest n f := rfl

theorem lookupNode_updateNode_self (l : List (String × NodeCost)) (n : String)
    (f : NodeCost → NodeCost) :
    lookupNode (updateNode l n f) n = (lookupNode l n).map f := by
  induction l with
  | nil => rfl
  | cons p rest ih =>
    obtain ⟨k, d⟩ := p
    rw [updateNode_cons]
    by_cases hk : k = n
    · rw [if_pos hk, lookupNode_cons, lookupNode_cons, if_pos hk, if_pos hk]
      rfl
    · rw [if_neg hk, lookupNode_cons, lookupNode_cons, if_neg hk, if_neg hk, ih]

theorem lookupNode_updateNode_ne (l : List (String × NodeCost)) (n m : String)
    (f : NodeCost → NodeCost) (h : m ≠ n) :
    lookupNode (updateNode l n f) m = lookupNode l m := by
  induction l with
  | nil => rfl
  | cons p rest ih =>
    obtain ⟨k, d⟩ := p
    rw [updateNode_cons]
    by_cases hk : k = n
    · have hkm : ¬ (k = m) := fun hh => h (hh ▸ hk)
      rw [if_pos hk, lookupNode_cons, lookupNode_cons, if_neg hkm, if_neg hkm, ih]
    · rw [if_neg hk, lookupNode_cons, lookupNode_cons]
      by_cases hkm : k = m
      · rw [if_pos hkm, if_pos hkm]
      · rw [if_neg hkm, if_neg hkm, ih]

theorem lookupNode_eq_none_iff (l : List (String × NodeCost)) (n : String) :
    lookupNode l n = none ↔ n ∉ keysOf l := by
  induction l with
  | nil => simp [lookupNode, keysOf]
  | cons p rest ih =>
    obtain ⟨k, d⟩ := p
    simp only [lookupNode, keysOf, List.map_cons, List.mem_cons, not_or]
    by_cases hk : k = n
    · rw [if_pos hk]
      simp [hk]
    · rw [if_neg hk, ih]
      constructor
      · intro hh
        exact ⟨fun hnk => hk hnk.symm, hh⟩
      · intro hh
        exact hh.2

theorem lookupNode_isSome_iff (l : List (String × NodeCost)) (n : String) :
    (lookupNode l n).isSome ↔ n ∈ keysOf l := by
  rw [Option.isSome_iff_ne_none, ne_eq, lookupNode_eq_none_iff, not_not]

theorem on_llm_start_current (t : CostTracker) :
    (on_llm_start t).current_node = t.current_node := by
  cases h : t.current_node <;> simp [on_llm_start, h]

theorem on_llm_end_current (t : CostTracker) (r : LLMResult) :
    (on_llm_end t r).current_node = t.current_node := by
  cases hr : r.llm_output with
  | none => simp [on_llm_end, hr]
  | some lo => cases h : t.current_node <;> simp [on_llm_end, hr, h]

theorem on_llm_start_node_costs_of_some {t : CostTracker} {n : String}
    (h : t.current_node = some n) :
    (on_llm_start t).node_costs
      = updateNode t.node_costs n (fun d => { d with calls := d.calls + 1 }) := by
  simp [on_llm_start, h]

theorem lookupNode_on_llm_end_map_calls (t : CostTracker) (r : LLMResult) (m : String) :
    (lookupNode (on_llm_end t r).node_costs m).map NodeCost.calls
      = (lookupNode t.node_costs m).map NodeCost.calls := by
  cases hr : r.llm_output with
  | none => simp [on_llm_end, hr]
  | some lo =>
    cases hc : t.current_node with
    | none => simp [on_llm_end, hr, hc]
    | some n =>
      simp only [on_llm_end, hr, hc]
      by_cases hm : m = n
      · subst hm
        rw [lookupNode_updateNode_self]
        cases lookupNode t.node_costs m <;> rfl
      · rw [lookupNode_updateNode_ne _ _ _ _ hm]

/-- C3 (amended): the synthesizer makes exactly one compression
Chat-Completion request with no retry loop; since it never calls
`set_current_node`, the call is recorded against the node left current by
the worker stage, `"summarize_audio"`, and no `"synthesizer"` cost node
exists in the tracker. -/
theorem c3_one_compression_call_recorded_on_lingering_node
    (o : RunOracle) (t : CostTracker) (s : State) (d : NodeCost)
    (hcur : t.current_node = some "summarize_audio")
    (hd : lookupNode t.node_costs "summarize_audio" = some d)
    (hsynth : lookupNode t.node_costs "synthesizer" = none) :
    (synthesizer_node o t s).1.calls = t.calls + 1 ∧
    lookupNode (synthesizer_node o t s).1.node_costs "synthesizer" = none ∧
    (lookupNode (synthesizer_node o t s).1.node_costs "summarize_audio").map NodeCost.calls
      = some (d.calls + 1) := by
  have hfst : (synthesizer_node o t s).1 = llm_invoke t o.synth_usage := rfl
  have hstart_nc := on_llm_start_node_costs_of_some hcur
  refine ⟨?_, ?_, ?_⟩
  · rw [hfst, llm_invoke, on_llm_end_calls, on_llm_start_calls]
  · rw [hfst, llm_invoke]
    rw [lookupNode_eq_none_iff, keysOf_on_llm_end, hstart_nc, keysOf_updateNode,
      ← lookupNode_eq_none_iff]
    exact hsynth
  · rw [hfst, llm_invoke, lookupNode_on_llm_end_map_calls, hstart_nc,
      lookupNode_updateNode_self, hd]
    rfl

/-- C3 counterexample: a concrete over-budget run (one 4097-character
section summary) makes its single compression call, but the tracker has no
`"synthesizer"` node at all - the call is counted under
`"summarize_audio"`, whose record shows 2 calls (1 worker + 1 synthesizer). -/
theorem c3_counterexample :
    4096 < (String.intercalate "\n\n" (run_pipeline "gpt-4o-mini" oracle_big [0] "tr" "en").2.completed_sections).length ∧
    (run_pipeline "gpt-4o-mini" oracle_big [0] "tr" "en").1.calls = 3 ∧
    lookupNode (run_pipeline "gpt-4o-mini" oracle_big [0] "tr" "en").1.node_costs "synthesizer" = none ∧
    (lookupNode (run_pipeline "gpt-4o-mini" oracle_big [0] "tr" "en").1.node_costs "summarize_audio").map NodeCost.calls = some 2 := by
  refine ⟨?_, by decide, by decide, by decide⟩
  have h1 : String.intercalate "\n\n"
      (run_pipeline "gpt-4o-mini" oracle_big [0] "tr" "en").2.completed_sections = bigText := rfl
  have h2 : bigText.length = (List.replicate 4097 'a').length := rfl
  rw [h1, h2, List.length_replicate]
  omega

/-- C3 witness. -/
theorem c3_witness :
    (synthesizer_node oracle_big worker_stage_tracker state_before_synthesis).1.calls
      = worker_stage_tracker.calls + 1 ∧
    lookupNode (synthesizer_node oracle_big worker_stage_tracker state_before_synthesis).1.node_costs "synthesizer" = none ∧
    (lookupNode (synthesizer_node oracle_big worker_stage_tracker state_before_synthesis).1.node_costs "summarize_audio").map NodeCost.calls
      = some (worker_node_record.calls + 1) :=
  c3_one_compression_call_recorded_on_lingering_node oracle_big worker_stage_tracker
    state_before_synthesis worker_node_record rfl rfl rfl

theorem updateNode_of_not_mem (l : List (String × NodeCost)) (n : String)
    (f : NodeCost → NodeCost) : n ∉ keysOf l → updateNode l n f = l := by
  induction l with
  | nil => intro _; rfl
  | cons p rest ih =>
    intro h
    obtain ⟨k, d⟩ := p
    simp only [keysOf, List.map_cons, List.mem_cons, not_or] at h
    have hk : ¬ (k = n) := fun hh => h.1 hh.symm
    rw [updateNode_cons, if_neg hk, ih h.2]

theorem sum_map_updateNode {α : Type} [AddCommMonoid α] (g : NodeCost → α)
    (l : List (String × NodeCost)) (n : String) (f : NodeCost → NodeCost)
    (hf : ∀ x, g (f x) = g x) :
    ((updateNode l n f).map (fun p => g p.2)).sum = (l.map (fun p => g p.2)).sum := by
  induction l with
  | nil => rfl
  | cons p rest ih =>
    obtain ⟨k, d⟩ := p
    rw [updateNode_cons]
    by_cases hk : k = n
    · rw [if_pos hk]
      simp only [List.map_cons, List.sum_cons]
      rw [hf, ih]
    · rw [if_neg hk]
      simp only [List.map_cons, List.sum_cons]
      rw [ih]

theorem sum_map_updateNode_add {α : Type} [AddCommMonoid α] (g : NodeCost → α) (δ : α)
    (l : List (String × NodeCost)) (n : String) (f : NodeCost → NodeCost)
    (hf : ∀ x, g (f x) = g x + δ) :
    n ∈ keysOf l → (keysOf l).Nodup →
    ((updateNode l n f).map (fun p => g p.2)).sum = (l.map (fun p => g p.2)).sum + δ := by
  induction l with
  | nil =>
    intro hmem _
    simp [keysOf] at hmem
  | cons p rest ih =>
    intro hmem hnd
    obtain ⟨k, d⟩ := p
    simp only [keysOf, List.map_cons, List.nodup_cons] at hnd
    obtain ⟨hknot, hndrest⟩ := hnd
    rw [updateNode_cons]
    by_cases hk : k = n
    · rw [if_pos hk]
      have hrest : updateNode rest n f = rest := by
        apply updateNode_of_not_mem
        rw [← hk]
        exact hknot
      rw [hrest]
      simp only [List.map_cons, List.sum_cons]
      rw [hf]
      exact add_right_comm _ _ _
    · rw [if_neg hk]
      simp only [List.map_cons, List.sum_cons]
      have hmem' : n ∈ keysOf rest := by
        simp only [keysOf, List.map_cons, List.mem_cons] at hmem
        rcases hmem with hh | hh
        · exact absurd hh.symm hk
        · exact hh
      rw [ih hmem' hndrest]
      exact (add_assoc _ _ _).symm

theorem set_current_node_current (t : CostTracker) (n : String) :
    (set_current_node t n).current_node = some n := by
  cases hl : lookupNode t.node_costs n <;> simp [set_current_node, hl]

theorem lookupNode_append_right (l : List (String × NodeCost)) (n : String) (d : NodeCost) :
    lookupNode l n = none → lookupNode (l ++ [(n, d)]) n = some d := by
  induction l with
  | nil =>
    intro _
    rw [List.nil_append, lookupNode_cons, if_pos rfl]
  | cons p rest ih =>
    intro h
    obtain ⟨k, e⟩ := p
    rw [lookupNode_cons] at h
    by_cases hk : k = n
    · rw [if_pos hk] at h
      cases h
    · rw [if_neg hk] at h
      rw [List.cons_append, lookupNode_cons, if_neg hk, ih h]

theorem keysOf_append (l1 l2 : List (String × NodeCost)) :
    keysOf (l1 ++ l2) = keysOf l1 ++ keysOf l2 := by
  simp [keysOf]

theorem keys_ok_of_keysOf_eq {t t' : CostTracker} (h : keys_ok t)
    (hk : keysOf t'.node_costs = keysOf t.node_costs)
    (hc : t'.current_node = t.current_node) : keys_ok t' := by
  obtain ⟨hnd, hcur⟩ := h
  refine ⟨hk ▸ hnd, ?_⟩
  intro n hn
  rw [lookupNode_isSome_iff, hk, ← lookupNode_isSome_iff]
  exact hcur n (hc ▸ hn)

theorem keys_ok_set_current_node {t : CostTracker} (h : keys_ok t) (n : String) :
    keys_ok (set_current_node t n) := by
  obtain ⟨hnd, hcur⟩ := h
  cases hl : lookupNode t.node_costs n with
  | some d =>
    have hnc : (set_current_node t n).node_costs = t.node_costs := by
      simp [set_current_node, hl]
    have hcn : (set_current_node t n).current_node = some n := set_current_node_current t n
    constructor
    · rw [hnc]
      exact hnd
    · intro m hm
      rw [hcn] at hm
      obtain rfl := Option.some.inj hm
      rw [hnc, hl]
      rfl
  | none =>
    have hnc : (set_current_node t n).node_costs = t.node_costs ++ [(n, NodeCost.zero)] := by
      simp [set_current_node, hl]
    have hcn : (set_current_node t n).current_node = some n := set_current_node_current t n
    have hnotmem : n ∉ keysOf t.node_costs := (lookupNode_eq_none_iff _ _).mp hl
    constructor
    · rw [hnc, keysOf_append]
      apply List.Nodup.append hnd (by simp [keysOf])
      intro a ha hb
      simp only [keysOf, List.map_cons, List.map_nil, List.mem_singleton] at hb
      subst hb
      exact hnotmem ha
    · intro m hm
      rw [hcn] at hm
      obtain rfl := Option.some.inj hm
      rw [hnc, lookupNode_append_right _ _ _ hl]
      rfl

theorem sums_append_zero (l : List (String × NodeCost)) (n : String) :
    node_cost_sum (l ++ [(n, NodeCost.zero)]) = node_cost_sum l ∧
    node_prompt_sum (l ++ [(n, NodeCost.zero)]) = node_prompt_sum l ∧
    node_completion_sum (l ++ [(n, NodeCost.zero)]) = node_completion_sum l ∧
    node_total_sum (l ++ [(n, NodeCost.zero)]) = node_total_sum l := by
  refine ⟨?_, ?_, ?_, ?_⟩ <;>
    simp [node_cost_sum, node_prompt_sum, node_completion_sum, node_total_sum, NodeCost.zero]

theorem sums_ok_set_current_node {t : CostTracker} (h : sums_ok t) (n : String) :
    sums_ok (set_current_node t n) := by
  obtain ⟨h1, h2, h3, h4⟩ := h
  cases hl : lookupNode t.node_costs n with
  | some d =>
    have hA : (set_current_node t n).node_costs = t.node_costs := by simp [set_current_node, hl]
    have hB : (set_current_node t n).total_cost = t.total_cost := by simp [set_current_node, hl]
    have hC : (set_current_node t n).prompt_tokens = t.prompt_tokens := by simp [set_current_node, hl]
    have hD : (set_current_node t n).completion_tokens = t.completion_tokens := by simp [set_current_node, hl]
    have hE : (set_current_node t n).total_tokens = t.total_tokens := by simp [set_current_node, hl]
    refine ⟨?_, ?_, ?_, ?_⟩
    · rw [hA, hB]; exact h1
    · rw [hA, hC]; exact h2
    · rw [hA, hD]; exact h3
    · rw [hA, hE]; exact h4
  | none =>
    have hA : (set_current_node t n).node_costs = t.node_costs ++ [(n, NodeCost.zero)] := by
      simp [set_current_node, hl]
    have hB : (set_current_node t n).total_cost = t.total_cost := by simp [set_current_node, hl]
    have hC : (set_current_node t n).prompt_tokens = t.prompt_tokens := by simp [set_current_node, hl]
    have hD : (set_current_node t n).completion_tokens = t.completion_tokens := by simp [set_current_node, hl]
    have hE : (set_current_node t n).total_tokens = t.total_tokens := by simp [set_current_node, hl]
    obtain ⟨z1, z2, z3, z4⟩ := sums_append_zero t.node_costs n
    refine ⟨?_, ?_, ?_, ?_⟩
    · rw [hA, hB, z1]; exact h1
    · rw [hA, hC, z2]; exact h2
    · rw [hA, hD, z3]; exact h3
    · rw [hA, hE, z4]; exact h4

theorem on_llm_start_totals (t : CostTracker) :
    (on_llm_start t).total_cost = t.total_cost ∧
    (on_llm_start t).prompt_tokens = t.prompt_tokens ∧
    (on_llm_start t).completion_tokens = t.completion_tokens ∧
    (on_llm_start t).total_tokens = t.total_tokens := by
  cases h : t.current_node <;> simp [on_llm_start, h]

theorem sums_ok_on_llm_start {t : CostTracker} (h : sums_ok t) : sums_ok (on_llm_start t) := by
  obtain ⟨h1, h2, h3, h4⟩ := h
  obtain ⟨e1, e2, e3, e4⟩ := on_llm_start_totals t
  cases hc : t.current_node with
  | none =>
    have hnc : (on_llm_start t).node_costs = t.node_costs := by simp [on_llm_start, hc]
    refine ⟨?_, ?_, ?_, ?_⟩
    · rw [hnc, e1]; exact h1
    · rw [hnc, e2]; exact h2
    · rw [hnc, e3]; exact h3
    · rw [hnc, e4]; exact h4
  | some n =>
    have hnc := on_llm_start_node_costs_of_some hc
    refine ⟨?_, ?_, ?_, ?_⟩
    · rw [hnc, e1, ← h1]
      exact sum_map_updateNode NodeCost.cost t.node_costs n _ (fun x => rfl)
    · rw [hnc, e2, ← h2]
      exact sum_map_updateNode NodeCost.prompt_tokens t.node_costs n _ (fun x => rfl)
    · rw [hnc, e3, ← h3]
      exact sum_map_updateNode NodeCost.completion_tokens t.node_costs n _ (fun x => rfl)
    · rw [hnc, e4, ← h4]
      exact sum_map_updateNode NodeCost.total_tokens t.node_costs n _ (fun x => rfl)

theorem keys_ok_on_llm_start {t : CostTracker} (h : keys_ok t) : keys_ok (on_llm_start t) :=
  keys_ok_of_keysOf_eq h (keysOf_on_llm_start t) (on_llm_start_current t)

theorem keys_ok_on_llm_end {t : CostTracker} (r : LLMResult) (h : keys_ok t) :
    keys_ok (on_llm_end t r) :=
  keys_ok_of_keysOf_eq h (keysOf_on_llm_end t r) (on_llm_end_current t r)

theorem on_llm_end_effects {t : CostTracker} {lo : LLMOutput} {r : LLMResult} {n : String}
    (hr : r.llm_output = some lo) (hc : t.current_node = some n) :
    (on_llm_end t r).node_costs
        = updateNode t.node_costs n (fun d =>
            { d with
              prompt_tokens := d.prompt_tokens + extracted_pt lo
              completion_tokens := d.completion_tokens + extracted_ct lo
              total_tokens := d.total_tokens + (extracted_pt lo + extracted_ct lo)
              cost := d.cost + call_cost_of t lo }) ∧
    (on_llm_end t r).total_cost = t.total_cost + call_cost_of t lo ∧
    (on_llm_end t r).prompt_tokens = t.prompt_tokens + extracted_pt lo ∧
    (on_llm_end t r).completion_tokens = t.completion_tokens + extracted_ct lo ∧
    (on_llm_end t r).total_tokens = t.total_tokens + (extracted_pt lo + extracted_ct lo) := by
  refine ⟨?_, ?_, ?_, ?_, ?_⟩ <;>
    simp [on_llm_end, hr, hc, extracted_pt, extracted_ct, call_cost_of]

theorem sums_ok_on_llm_end {t : CostTracker} (r : LLMResult) (h : sums_ok t) (hk : keys_ok t)
    (hcur : t.current_node.isSome) : sums_ok (on_llm_end t r) := by
  obtain ⟨h1, h2, h3, h4⟩ := h
  obtain ⟨hnd, hkey⟩ := hk
  cases hr : r.llm_output with
  | none =>
    have heq : on_llm_end t r = t := by simp [on_llm_end, hr]
    rw [heq]
    exact ⟨h1, h2, h3, h4⟩
  | some lo =>
    obtain ⟨n, hc⟩ := Option.isSome_iff_exists.mp hcur
    obtain ⟨e0, e1, e2, e3, e4⟩ := on_llm_end_effects hr hc
    have hmem : n ∈ keysOf t.node_costs := (lookupNode_isSome_iff _ _).mp (hkey n hc)
    refine ⟨?_, ?_, ?_, ?_⟩
    · rw [e0, e1, ← h1]
      exact sum_map_updateNode_add NodeCost.cost (call_cost_of t lo) t.node_costs n _
        (fun x => rfl) hmem hnd
    · rw [e0, e2, ← h2]
      exact sum_map_updateNode_add NodeCost.prompt_tokens (extracted_pt lo) t.node_costs n _
        (fun x => rfl) hmem hnd
    · rw [e0, e3, ← h3]
      exact sum_map_updateNode_add NodeCost.completion_tokens (extracted_ct lo) t.node_costs n _
        (fun x => rfl) hmem hnd
    · rw [e0, e4, ← h4]
      exact sum_map_updateNode_add NodeCost.total_tokens (extracted_pt lo + extracted_ct lo)
        t.node_costs n _ (fun x => rfl) hmem hnd

theorem run_events_invariant (es : List TrackerEvent) :
    ∀ (t : CostTracker) (b : Bool), node_before_end b es = true →
      sums_ok t → keys_ok t → (b = true → t.current_node.isSome) →
      sums_ok (run_events t es) := by
  induction es with
  | nil =>
    intro t b _ hs _ _
    exact hs
  | cons e rest ih =>
    intro t b hnb hs hk hb
    cases e with
    | set_node n =>
      have hnb' : node_before_end true rest = true := by
        simpa [node_before_end] using hnb
      exact ih (set_current_node t n) true hnb' (sums_ok_set_current_node hs n)
        (keys_ok_set_current_node hk n)
        (fun _ => by rw [set_current_node_current]; rfl)
    | start_call =>
      have hnb' : node_before_end b rest = true := by
        simpa [node_before_end] using hnb
      exact ih (on_llm_start t) b hnb' (sums_ok_on_llm_start hs) (keys_ok_on_llm_start hk)
        (fun hbb => by rw [on_llm_start_current]; exact hb hbb)
    | end_call r =>
      have hsplit : b = true ∧ node_before_end b rest = true := by
        simpa [node_before_end, Bool.and_eq_true] using hnb
      obtain ⟨hbt, hnb'⟩ := hsplit
      exact ih (on_llm_end t r) b hnb' (sums_ok_on_llm_end r hs ⟨hk.1, hk.2⟩ (hb hbt))
        (keys_ok_on_llm_end r hk)
        (fun hbb => by rw [on_llm_end_current]; exact hb hbb)

/-- C5: starting from a fresh tracker, for every event sequence in which
each LLM-end event happens after some node has been set (every pipeline run
has this shape - the orchestrator sets its node first), the per-node cost
records sum exactly to the global total cost, and the per-node prompt,
completion and total token counts sum to the global token counters. -/
theorem c5_node_sums_equal_global_totals (model_name : String) (es : List TrackerEvent)
    (h : node_before_end false es = true) :
    sums_ok (run_events (CostTracker.init model_name) es) :=
  run_events_invariant es (CostTracker.init model_name) false h
    ⟨rfl, rfl, rfl, rfl⟩
    ⟨List.nodup_nil, fun _ hn => nomatch hn⟩
    (fun hb => nomatch hb)

/-- C5 witness: a concrete planner-then-worker trace. -/
theorem c5_witness :
    node_before_end false [TrackerEvent.set_node "orchestrator", TrackerEvent.start_call,
      TrackerEvent.end_call usage_10_5, TrackerEvent.set_node "summarize_audio",
      TrackerEvent.start_call, TrackerEvent.end_call usage_10_5] = true ∧
    sums_ok (run_events (CostTracker.init "gpt-4o-mini")
      [TrackerEvent.set_node "orchestrator", TrackerEvent.start_call,
       TrackerEvent.end_call usage_10_5, TrackerEvent.set_node "summarize_audio",
       TrackerEvent.start_call, TrackerEvent.end_call usage_10_5]) :=
  ⟨rfl, c5_node_sums_equal_global_totals "gpt-4o-mini" _ rfl⟩
